import Mathlib

/-!
Shallow embedding of the Multiplayer-chess-backend server (src/index.js).

The server keeps two in-memory `Map`s, `rooms` and `games`, keyed by room id,
and reacts to socket events (`createRoom`, `joinRoom`, `move`, `gameReset`,
`disconnect`).  We embed the two maps as association lists without duplicate
keys (a JS `Map` never holds a key twice), each socket event handler as a pure
function from server state (plus the event's inputs and the wall-clock
timestamp, which the JS code reads via `new Date()`) to a new server state
together with the list of socket emissions the handler performs.

The chess engine (`chess.js`) is an external dependency, not part of this
repository; the spec treats it as an opaque external Rules Engine.  We embed
it as an abstract interface `RulesEngine` over an opaque board type, carrying
the two engine facts the handlers rely on and that chess.js guarantees: a
successful move flips the side to move, and checkmate implies game over.
-/

namespace ChessServer

/-- The two sides; chess.js reports the side to move as a char 'w' or 'b',
which the server immediately translates to the strings "white" / "black"
(`game.chess.turn() === 'w' ? 'white' : 'black'`).  We embed the side as this
two-element type. -/
inductive Color where
  | white
  | black
deriving DecidableEq

/-- The opposite side. -/
def Color.flip : Color → Color
  | .white => .black
  | .black => .white

/-- The display string for a side, as used in the checkmate message. -/
def Color.name : Color → String
  | .white => "white"
  | .black => "black"

theorem Color.flip_flip (c : Color) : c.flip.flip = c := by
  cases c <;> rfl

theorem Color.flip_ne (c : Color) : c.flip ≠ c := by
  cases c <;> simp [Color.flip]

/-! ### Association-list maps

`rooms` and `games` are JS `Map`s.  `mapGet` is `Map.get` (as an `Option`),
`mapSet` is `Map.set` (update in place when the key is present, append
otherwise), `mapDelete` is `Map.delete`. -/

/-- JS `Map.get`, `none` when the key is absent. -/
def mapGet {α : Type} (m : List (String × α)) (k : String) : Option α :=
  match m with
  | [] => none
  | (k', v) :: rest => if k' = k then some v else mapGet rest k

/-- JS `Map.set`: replace the value at an existing key (keeping its
position), append a fresh binding otherwise. -/
def mapSet {α : Type} (m : List (String × α)) (k : String) (v : α) :
    List (String × α) :=
  match m with
  | [] => [(k, v)]
  | (k', v') :: rest =>
    if k' = k then (k, v) :: rest else (k', v') :: mapSet rest k v

/-- JS `Map.delete`. -/
def mapDelete {α : Type} (m : List (String × α)) (k : String) :
    List (String × α) :=
  match m with
  | [] => []
  | (k', v) :: rest =>
    if k' = k then mapDelete rest k else (k', v) :: mapDelete rest k

theorem mapGet_set_self {α : Type} (m : List (String × α)) (k : String)
    (v : α) : mapGet (mapSet m k v) k = some v := by
  induction m with
  | nil => simp [mapSet, mapGet]
  | cons hd tl ih =>
    obtain ⟨k', v'⟩ := hd
    by_cases h : k' = k
    · simp [mapSet, h, mapGet]
    · simp [mapSet, h, mapGet, ih]

theorem mapGet_set_ne {α : Type} (m : List (String × α)) (k k' : String)
    (v : α) (h : k ≠ k') : mapGet (mapSet m k v) k' = mapGet m k' := by
  induction m with
  | nil => simp [mapSet, mapGet, h]
  | cons hd tl ih =>
    obtain ⟨k₀, v₀⟩ := hd
    by_cases h0 : k₀ = k
    · subst h0
      simp [mapSet, mapGet, h]
    · simp [mapSet, h0, mapGet, ih]

theorem mapGet_delete_self {α : Type} (m : List (String × α)) (k : String) :
    mapGet (mapDelete m k) k = none := by
  induction m with
  | nil => simp [mapDelete, mapGet]
  | cons hd tl ih =>
    obtain ⟨k', v'⟩ := hd
    by_cases h : k' = k
    · simp [mapDelete, h, ih]
    · simp [mapDelete, h, mapGet, ih]

theorem mapSet_mapSet {α : Type} (m : List (String × α)) (k : String)
    (v w : α) : mapSet (mapSet m k v) k w = mapSet m k w := by
  induction m with
  | nil => simp [mapSet]
  | cons hd tl ih =>
    obtain ⟨k', v'⟩ := hd
    by_cases h : k' = k
    · simp [mapSet, h]
    · simp [mapSet, h, ih]

theorem mem_mapSet {α : Type} {m : List (String × α)} {k : String} {v : α}
    {p : String × α} (hp : p ∈ mapSet m k v) : p = (k, v) ∨ p ∈ m := by
  induction m with
  | nil => simpa [mapSet] using hp
  | cons hd tl ih =>
    obtain ⟨k', v'⟩ := hd
    by_cases h : k' = k
    · rw [mapSet] at hp
      simp only [h, if_pos rfl] at hp
      rcases List.mem_cons.mp hp with h1 | h1
      · exact Or.inl h1
      · exact Or.inr (List.mem_cons_of_mem _ h1)
    · rw [mapSet] at hp
      simp only [h, if_neg h] at hp
      rcases List.mem_cons.mp hp with h1 | h1
      · exact Or.inr (List.mem_cons.mpr (Or.inl h1))
      · rcases ih h1 with h2 | h2
        · exact Or.inl h2
        · exact Or.inr (List.mem_cons_of_mem _ h2)

theorem mem_mapDelete {α : Type} {m : List (String × α)} {k : String}
    {p : String × α} (hp : p ∈ mapDelete m k) : p ∈ m ∧ p.1 ≠ k := by
  induction m with
  | nil => simp [mapDelete] at hp
  | cons hd tl ih =>
    obtain ⟨k', v'⟩ := hd
    by_cases h : k' = k
    · rw [mapDelete] at hp
      simp only [if_pos h] at hp
      exact ⟨List.mem_cons_of_mem _ (ih hp).1, (ih hp).2⟩
    · rw [mapDelete] at hp
      simp only [if_neg h] at hp
      rcases List.mem_cons.mp hp with h1 | h1
      · subst h1
        exact ⟨List.mem_cons.mpr (Or.inl rfl), h⟩
      · exact ⟨List.mem_cons_of_mem _ (ih h1).1, (ih h1).2⟩

/-! ### Data model -/

/-- One entry of `room.players`. -/
structure Player where
  socketId : String
  username : String
  color : Color
  ready : Bool
deriving DecidableEq

/-- A value of the `rooms` map. -/
structure Room where
  roomId : String
  players : List Player
  status : String
  created : String
  lastActivity : String
deriving DecidableEq

/-- One entry of `game.history` (`{move: result, fen, timestamp, player}`);
the chess.js move-result object is embedded as its string detail. -/
structure HistoryEntry where
  move : String
  fen : String
  timestamp : String
  player : String
deriving DecidableEq

/-- A value of the `games` map; `Board` is the opaque chess.js board type. -/
structure Game (Board : Type) where
  chess : Board
  gameState : String
  currentTurn : Color
  moveCount : Nat
  history : List HistoryEntry
deriving DecidableEq

/-- The whole mutable server state: the `rooms` and `games` maps. -/
structure ServerState (Board : Type) where
  rooms : List (String × Room)
  games : List (String × Game Board)
deriving DecidableEq

/-! ### The external Rules Engine

chess.js is out of this repository; the spec treats it as an external
collaborator.  We embed exactly the operations the server calls, over an
opaque board type, with the two contracts the handlers rely on. -/

structure RulesEngine (Board : Type) where
  /-- The initial position (`new Chess()`, and the result of `reset()`). -/
  init : Board
  /-- Embeds `chess.turn()`, already translated from 'w'/'b' to a `Color`. -/
  turn : Board → Color
  /-- Embeds `chess.move(m)`: `none` when the move is illegal, otherwise the new
  board and the move-result detail (`result`, whose `san` the server logs
  and which it stores in history and in `lastMove`). -/
  move : Board → String → Option (Board × String)
  /-- Embeds `chess.isGameOver()`. -/
  isGameOver : Board → Bool
  /-- Embeds `chess.isCheckmate()`. -/
  isCheckmate : Board → Bool
  /-- Embeds `chess.isDraw()`. -/
  isDraw : Board → Bool
  /-- Embeds `chess.fen()`. -/
  fen : Board → String
  /-- Engine contract: a successful move flips the side to move. -/
  move_flips_turn : ∀ b m b' r, move b m = some (b', r) → turn b' = (turn b).flip
  /-- Engine contract: checkmate is a game-over position. -/
  checkmate_isGameOver : ∀ b, isCheckmate b = true → isGameOver b = true

/-! ### Outbound events and emissions -/

/-- The `gameOverData` object built by the move handler. -/
structure GameOverData where
  type : String
  winner : Option Color
  message : String
deriving DecidableEq

/-- Payloads of the outbound socket events the server emits. -/
inductive Event where
  | moveEcho (mv : String)
  | gameUpdate (fen : String) (currentTurn : Color) (moveCount : Nat)
      (gameOver : Option GameOverData) (lastMove : Option String)
  | errorMsg (message : String)
  | gameResetSignal
  | opponentJoined (room : Room)
  | playerDisconnected (player : Player) (remainingPlayers : Nat)
deriving DecidableEq

/-- One emission performed by a handler: `socket.emit` (to one socket),
`socket.to(roomId).emit` (to the socket.io room except the sender), or
`io.to(roomId).emit` (to the whole socket.io room). -/
inductive Emit where
  | toSocket (socketId : String) (ev : Event)
  | toRoomExcept (roomId : String) (senderId : String) (ev : Event)
  | toRoom (roomId : String) (ev : Event)
deriving DecidableEq

/-- Delivery semantics of an emission: the socket ids that receive it.
Participants of a room are exactly the sockets that joined the socket.io
room of that id (`socket.join(roomId)` at create / join, automatic leave on
disconnect), so the socket.io room membership is the `players` list of the
registry's room. -/
def recipients {B : Type} (st : ServerState B) : Emit → List String
  | .toSocket sid _ => [sid]
  | .toRoomExcept rid sender _ =>
    match mapGet st.rooms rid with
    | some room => (room.players.map Player.socketId).filter (fun x => x != sender)
    | none => []
  | .toRoom rid _ =>
    match mapGet st.rooms rid with
    | some room => room.players.map Player.socketId
    | none => []

/-! ### Event handlers

Each `socket.on(...)` handler of src/index.js becomes a pure function.  The
socket id of the handling connection, the payload fields, the freshly
generated uuid (for `createRoom`) and the current timestamp (`new Date()`)
are inputs; the result is the new server state plus the emissions (and the
ack-callback value where the handler has one). -/

/-- The `createRoom` handler.  `newId` is the value of `generateRoomId()`
(a uuid prefix, i.e. external randomness, hence a parameter).  Note the id
is generated exactly once and `rooms.set` / `games.set` are called with it
unconditionally: there is no collision check or retry.  The callback value
is the returned room id. -/
def onCreateRoom {B : Type} (eng : RulesEngine B) (st : ServerState B)
    (sid : String) (username : Option String) (newId now : String) :
    ServerState B × String :=
  let room : Room :=
    { roomId := newId
      players := [⟨sid, username.getD "Anonymous", Color.white, false⟩]
      status := "waiting"
      created := now
      lastActivity := now }
  let game : Game B :=
    { chess := eng.init
      gameState := "waiting"
      currentTurn := Color.white
      moveCount := 0
      history := [] }
  ({ rooms := mapSet st.rooms newId room
     games := mapSet st.games newId game }, newId)

/-- Ack-callback value of the `joinRoom` handler. -/
inductive JoinResult where
  | ok (room : Room)
  | err (message : String)
deriving DecidableEq

/-- The `joinRoom` handler.  Checks, in source order: room existence, then
`players.length >= 2` (full), then whether the requester is already a
participant. -/
def onJoinRoom {B : Type} (st : ServerState B) (sid : String)
    (username : Option String) (roomId now : String) :
    ServerState B × JoinResult × List Emit :=
  match mapGet st.rooms roomId with
  | none => (st, .err "Room not found", [])
  | some room =>
    if room.players.length ≥ 2 then (st, .err "Room is full", [])
    else if room.players.any (fun p => p.socketId == sid) then
      (st, .err "Already in this room", [])
    else
      let newPlayer : Player := ⟨sid, username.getD "Anonymous", Color.black, false⟩
      let room' :=
        { room with
          players := room.players ++ [newPlayer]
          status := "ready"
          lastActivity := now }
      let games' :=
        match mapGet st.games roomId with
        | some g => mapSet st.games roomId { g with gameState := "active" }
        | none => st.games
      ({ rooms := mapSet st.rooms roomId room', games := games' },
       .ok room', [.toRoomExcept roomId sid (.opponentJoined room')])

/-- The `gameOverData` value computed by the move handler after an accepted
move landing on board `b'`: `null` unless `isGameOver()`; on checkmate the
winner is `chess.turn() === 'w' ? 'black' : 'white'` — the opposite of the
new side to move. -/
def gameOverDataOf {B : Type} (eng : RulesEngine B) (b' : B) :
    Option GameOverData :=
  if eng.isGameOver b' then
    if eng.isCheckmate b' then
      let winner := if eng.turn b' = Color.white then Color.black else Color.white
      some ⟨"checkmate", some winner, "Checkmate! " ++ winner.name ++ " wins!"⟩
    else if eng.isDraw b' then
      some ⟨"draw", none, "Game ended in a draw"⟩
    else none
  else none

/-- The `move` handler.  Checks in source order: room and game existence,
requester membership (`players.find`), turn match against the engine's
`turn()`, then move legality via the engine.  On acceptance it increments
`moveCount`, sets `currentTurn` from the engine's new turn, appends a
history record, updates `lastActivity`, sets `gameState = 'finished'` when
the engine reports game over, then emits the raw move to the room except
the sender and a `gameUpdate` to the whole room. -/
def onMove {B : Type} (eng : RulesEngine B) (st : ServerState B)
    (sid mv roomId now : String) : ServerState B × List Emit :=
  match mapGet st.rooms roomId, mapGet st.games roomId with
  | some room, some game =>
    match room.players.find? (fun p => p.socketId == sid) with
    | none => (st, [.toSocket sid (.errorMsg "Player not found in room")])
    | some player =>
      if player.color ≠ eng.turn game.chess then
        (st, [.toSocket sid (.errorMsg "Not your turn")])
      else
        match eng.move game.chess mv with
        | none => (st, [.toSocket sid (.errorMsg "Invalid move")])
        | some (b', result) =>
          let game' : Game B :=
            { chess := b'
              gameState := if eng.isGameOver b' then "finished" else game.gameState
              currentTurn := eng.turn b'
              moveCount := game.moveCount + 1
              history := game.history ++ [⟨result, eng.fen b', now, player.username⟩] }
          let room' := { room with lastActivity := now }
          let st' : ServerState B :=
            { rooms := mapSet st.rooms roomId room'
              games := mapSet st.games roomId game' }
          (st', [.toRoomExcept roomId sid (.moveEcho mv),
                 .toRoom roomId (.gameUpdate (eng.fen b') (eng.turn b')
                   (game.moveCount + 1) (gameOverDataOf eng b') (some result))])
  | _, _ => (st, [.toSocket sid (.errorMsg "Room or game not found")])

/-- Whether a `move` submission passes all four checks of the move handler
and is accepted. -/
def moveAccepted {B : Type} (eng : RulesEngine B) (st : ServerState B)
    (sid mv roomId : String) : Bool :=
  match mapGet st.rooms roomId, mapGet st.games roomId with
  | some room, some game =>
    match room.players.find? (fun p => p.socketId == sid) with
    | some player =>
      player.color == eng.turn game.chess && (eng.move game.chess mv).isSome
    | none => false
  | _, _ => false

/-- The `gameReset` handler: silently returns when room or game is missing;
otherwise resets the board to the initial position, sets
`gameState = 'active'`, `currentTurn = 'white'`, `moveCount = 0`, clears
`history`, updates `lastActivity`, and emits `gameReset` then a fresh
`gameUpdate` to the whole room. -/
def onGameReset {B : Type} (eng : RulesEngine B) (st : ServerState B)
    (roomId now : String) : ServerState B × List Emit :=
  match mapGet st.rooms roomId, mapGet st.games roomId with
  | some room, some _g =>
    let game' : Game B :=
      { chess := eng.init
        gameState := "active"
        currentTurn := Color.white
        moveCount := 0
        history := [] }
    let room' := { room with lastActivity := now }
    ({ rooms := mapSet st.rooms roomId room'
       games := mapSet st.games roomId game' },
     [.toRoom roomId .gameResetSignal,
      .toRoom roomId (.gameUpdate (eng.fen eng.init) Color.white 0 none none)])
  | _, _ => (st, [])

/-- The `cleanupRoom` helper: deletes the room and its game iff the room exists and has
no players left. -/
def cleanupRoom {B : Type} (st : ServerState B) (roomId : String) :
    ServerState B :=
  match mapGet st.rooms roomId with
  | some room =>
    if room.players.length = 0 then
      { rooms := mapDelete st.rooms roomId, games := mapDelete st.games roomId }
    else st
  | none => st

/-- The `disconnect` handler: scan `rooms` in order for the first room with
a player whose socket id matches, remove that player (`findIndex` +
`splice(i, 1)` removes the first match), update `lastActivity`, notify the
remaining players if any, call `cleanupRoom`, and stop (`break`). -/
def onDisconnect {B : Type} (st : ServerState B) (sid now : String) :
    ServerState B × List Emit :=
  match st.rooms.find? (fun p => p.2.players.any (fun q => q.socketId == sid)) with
  | none => (st, [])
  | some (roomId, room) =>
    match room.players.find? (fun q => q.socketId == sid) with
    | none => (st, [])
    | some disconnectedPlayer =>
      let players' := room.players.eraseP (fun q => q.socketId == sid)
      let room' := { room with players := players', lastActivity := now }
      let st1 : ServerState B := { st with rooms := mapSet st.rooms roomId room' }
      let emits :=
        if players'.length > 0 then
          [Emit.toRoomExcept roomId sid
            (.playerDisconnected disconnectedPlayer players'.length)]
        else []
      (cleanupRoom st1 roomId, emits)

/-! ### A concrete Rules Engine instance

The actual engine (chess.js) is external to the repository; theorems about
the handlers are stated over an arbitrary `RulesEngine`.  To evaluate them
on concrete inputs we use a tiny engine over `Nat` boards (the number of
moves played so far): any nonempty string is a legal move, positions from 3
on are game over, position 3 exactly is checkmate, positions from 4 on are
drawn. -/

/-- Side to move of the toy board: white iff an even number of moves have
been played. -/
def toyTurn (b : Nat) : Color :=
  if b % 2 = 0 then Color.white else Color.black

theorem toyTurn_succ (b : Nat) : toyTurn (b + 1) = (toyTurn b).flip := by
  unfold toyTurn
  rcases Nat.mod_two_eq_zero_or_one b with h | h
  · have h1 : (b + 1) % 2 = 1 := by omega
    simp [h, h1, Color.flip]
  · have h1 : (b + 1) % 2 = 0 := by omega
    simp [h, h1, Color.flip]

/-- The toy engine used to instantiate handler theorems on concrete
states. -/
def toyEngine : RulesEngine Nat where
  init := 0
  turn := toyTurn
  move := fun b m => if m = "" then none else some (b + 1, m)
  isGameOver := fun b => decide (3 ≤ b)
  isCheckmate := fun b => decide (b = 3)
  isDraw := fun b => decide (4 ≤ b)
  fen := fun b => toString b
  move_flips_turn := by
    intro b m b' r h
    by_cases hm : m = ""
    · simp [hm] at h
    · simp only [if_neg hm, Option.some.injEq, Prod.mk.injEq] at h
      rw [← h.1]
      exact toyTurn_succ b
  checkmate_isGameOver := by
    intro b h
    simp only [decide_eq_true_eq] at h ⊢
    omega

/-! ### Concrete states for the witness theorems -/

/-- A white-side participant on socket "s1". -/
def alice : Player := ⟨"s1", "Alice", Color.white, false⟩

/-- A black-side participant on socket "s2". -/
def bob : Player := ⟨"s2", "Bob", Color.black, false⟩

/-- A two-participant room "R1". -/
def room0 : Room := ⟨"R1", [alice, bob], "ready", "t0", "t0"⟩

/-- The game of room "R1": fresh board, white to move. -/
def game0 : Game Nat := ⟨0, "active", Color.white, 0, []⟩

/-- A server state holding the single two-participant room "R1". -/
def st0 : ServerState Nat := ⟨[("R1", room0)], [("R1", game0)]⟩

/-- The game of room "R1" two toy moves in: white to move, one move from
the toy engine's checkmate board. -/
def gameMate : Game Nat := ⟨2, "active", Color.white, 2, []⟩

/-- A server state whose game is one accepted move away from checkmate. -/
def stMate : ServerState Nat := ⟨[("R1", room0)], [("R1", gameMate)]⟩

/-! ### Characterization helpers for the move handler -/

/-- What the move handler returns when all four checks pass: the room's
`lastActivity` is refreshed, the game is replaced by the post-move game, and
the two broadcasts are emitted. -/
theorem onMove_accept_eq {B : Type} (eng : RulesEngine B) (st : ServerState B)
    (sid mv roomId now : String) (room : Room) (game : Game B)
    (player : Player) (b' : B) (res : String)
    (hroom : mapGet st.rooms roomId = some room)
    (hgame : mapGet st.games roomId = some game)
    (hplayer : room.players.find? (fun p => p.socketId == sid) = some player)
    (hturn : player.color = eng.turn game.chess)
    (hmove : eng.move game.chess mv = some (b', res)) :
    onMove eng st sid mv roomId now =
      ({ rooms := mapSet st.rooms roomId { room with lastActivity := now }
         games := mapSet st.games roomId
           { chess := b'
             gameState := if eng.isGameOver b' then "finished" else game.gameState
             currentTurn := eng.turn b'
             moveCount := game.moveCount + 1
             history := game.history ++ [⟨res, eng.fen b', now, player.username⟩] } },
       [.toRoomExcept roomId sid (.moveEcho mv),
        .toRoom roomId (.gameUpdate (eng.fen b') (eng.turn b')
          (game.moveCount + 1) (gameOverDataOf eng b') (some res))]) := by
  simp [onMove, hroom, hgame, hplayer, hturn, hmove]

/-- The move handler on a submission whose submitter is a participant but
not on turn: unchanged state, single unicast error. -/
theorem onMove_out_of_turn_eq {B : Type} (eng : RulesEngine B)
    (st : ServerState B) (sid mv roomId now : String) (room : Room)
    (game : Game B) (player : Player)
    (hroom : mapGet st.rooms roomId = some room)
    (hgame : mapGet st.games roomId = some game)
    (hplayer : room.players.find? (fun p => p.socketId == sid) = some player)
    (hturn : player.color ≠ eng.turn game.chess) :
    onMove eng st sid mv roomId now =
      (st, [.toSocket sid (.errorMsg "Not your turn")]) := by
  simp [onMove, hroom, hgame, hplayer, hturn]

/-! ### The claims -/

/-- C1: For every accepted move processed by the move handler, the room's
GameSession `moveCount` is exactly one greater than before the move, and
`currentTurn` flips exactly once (white becomes black, black becomes
white).  The hypothesis `hsync` is the invariant, established at creation
and maintained by every handler, that the stored `currentTurn` mirrors the
engine's side to move. -/
theorem accepted_move_increments_and_flips_C1 {B : Type}
    (eng : RulesEngine B) (st : ServerState B) (sid mv roomId now : String)
    (room : Room) (game : Game B) (player : Player) (b' : B) (res : String)
    (hroom : mapGet st.rooms roomId = some room)
    (hgame : mapGet st.games roomId = some game)
    (hplayer : room.players.find? (fun p => p.socketId == sid) = some player)
    (hturn : player.color = eng.turn game.chess)
    (hmove : eng.move game.chess mv = some (b', res))
    (hsync : game.currentTurn = eng.turn game.chess) :
    ∃ game',
      mapGet (onMove eng st sid mv roomId now).1.games roomId = some game' ∧
      game'.moveCount = game.moveCount + 1 ∧
      game'.currentTurn = game.currentTurn.flip := by
  rw [onMove_accept_eq eng st sid mv roomId now room game player b' res
    hroom hgame hplayer hturn hmove]
  refine ⟨_, mapGet_set_self _ _ _, rfl, ?_⟩
  rw [hsync]
  exact eng.move_flips_turn _ _ _ _ hmove

/-- Witness for C1: white's opening move in the concrete state `st0`. -/
theorem accepted_move_increments_and_flips_C1_witness :
    ∃ game',
      mapGet (onMove toyEngine st0 "s1" "e4" "R1" "t1").1.games "R1" = some game' ∧
      game'.moveCount = game0.moveCount + 1 ∧
      game'.currentTurn = game0.currentTurn.flip :=
  accepted_move_increments_and_flips_C1 toyEngine st0 "s1" "e4" "R1" "t1"
    room0 game0 alice 1 "e4" (by decide) (by decide) (by decide) (by decide)
    (by decide) (by decide)

/-- C2: a move submitted by a participant whose side does not equal the
Rules Engine's current turn is rejected with the out-of-turn error, sent to
the submitter alone, and the whole server state — hence `moveCount`,
`currentTurn`, the board and the history — is left unchanged. -/
theorem out_of_turn_rejected_C2 {B : Type} (eng : RulesEngine B)
    (st : ServerState B) (sid mv roomId now : String) (room : Room)
    (game : Game B) (player : Player)
    (hroom : mapGet st.rooms roomId = some room)
    (hgame : mapGet st.games roomId = some game)
    (hplayer : room.players.find? (fun p => p.socketId == sid) = some player)
    (hturn : player.color ≠ eng.turn game.chess) :
    onMove eng st sid mv roomId now =
      (st, [.toSocket sid (.errorMsg "Not your turn")]) ∧
    mapGet (onMove eng st sid mv roomId now).1.games roomId = some game ∧
    recipients st (.toSocket sid (.errorMsg "Not your turn")) = [sid] := by
  have h := onMove_out_of_turn_eq eng st sid mv roomId now room game player
    hroom hgame hplayer hturn
  exact ⟨h, by rw [h]; exact hgame, rfl⟩

/-- Witness for C2: black tries to move first in the concrete state `st0`. -/
theorem out_of_turn_rejected_C2_witness :
    (onMove toyEngine st0 "s2" "e4" "R1" "t1") =
      (st0, [.toSocket "s2" (.errorMsg "Not your turn")]) ∧
    mapGet (onMove toyEngine st0 "s2" "e4" "R1" "t1").1.games "R1" = some game0 ∧
    recipients st0 (.toSocket "s2" (.errorMsg "Not your turn")) = ["s2"] :=
  out_of_turn_rejected_C2 toyEngine st0 "s2" "e4" "R1" "t1" room0 game0 bob
    (by decide) (by decide) (by decide) (by decide)

theorem ite_color_flip (c : Color) :
    (if c = Color.white then Color.black else Color.white) = c.flip := by
  cases c <;> simp [Color.flip]

/-- On a checkmate board the move handler's `gameOverData` is the checkmate
record whose winner is the opposite of the new side to move. -/
theorem gameOverDataOf_checkmate {B : Type} (eng : RulesEngine B) (b' : B)
    (hcm : eng.isCheckmate b' = true) :
    gameOverDataOf eng b' =
      some ⟨"checkmate", some (eng.turn b').flip,
        "Checkmate! " ++ (eng.turn b').flip.name ++ " wins!"⟩ := by
  unfold gameOverDataOf
  rw [eng.checkmate_isGameOver b' hcm, hcm]
  simp [ite_color_flip]

/-- C3: after an accepted move that the Rules Engine reports as checkmate,
the stored game has `gameState = "finished"`, and the winner reported in
the GameOver outcome is the flip of the new `currentTurn` — which is the
side that made the mating move. -/
theorem checkmate_finished_winner_C3 {B : Type} (eng : RulesEngine B)
    (st : ServerState B) (sid mv roomId now : String) (room : Room)
    (game : Game B) (player : Player) (b' : B) (res : String)
    (hroom : mapGet st.rooms roomId = some room)
    (hgame : mapGet st.games roomId = some game)
    (hplayer : room.players.find? (fun p => p.socketId == sid) = some player)
    (hturn : player.color = eng.turn game.chess)
    (hmove : eng.move game.chess mv = some (b', res))
    (hcm : eng.isCheckmate b' = true) :
    ∃ game',
      mapGet (onMove eng st sid mv roomId now).1.games roomId = some game' ∧
      game'.gameState = "finished" ∧
      gameOverDataOf eng b' =
        some ⟨"checkmate", some game'.currentTurn.flip,
          "Checkmate! " ++ game'.currentTurn.flip.name ++ " wins!"⟩ ∧
      game'.currentTurn.flip = player.color ∧
      (onMove eng st sid mv roomId now).2 =
        [.toRoomExcept roomId sid (.moveEcho mv),
         .toRoom roomId (.gameUpdate (eng.fen b') game'.currentTurn
           game'.moveCount (gameOverDataOf eng b') (some res))] := by
  rw [onMove_accept_eq eng st sid mv roomId now room game player b' res
    hroom hgame hplayer hturn hmove]
  refine ⟨_, mapGet_set_self _ _ _, ?_, ?_, ?_, rfl⟩
  · simp [eng.checkmate_isGameOver b' hcm]
  · exact gameOverDataOf_checkmate eng b' hcm
  · show (eng.turn b').flip = player.color
    rw [eng.move_flips_turn _ _ _ _ hmove, Color.flip_flip, hturn]

/-- Witness for C3: in a state two toy moves in, white's third move lands
on the toy engine's checkmate board. -/
theorem checkmate_finished_winner_C3_witness :
    ∃ game',
      mapGet (onMove toyEngine stMate "s1" "Qg7" "R1" "t3").1.games "R1" =
        some game' ∧
      game'.gameState = "finished" ∧
      gameOverDataOf toyEngine 3 =
        some ⟨"checkmate", some game'.currentTurn.flip,
          "Checkmate! " ++ game'.currentTurn.flip.name ++ " wins!"⟩ ∧
      game'.currentTurn.flip = alice.color ∧
      (onMove toyEngine stMate "s1" "Qg7" "R1" "t3").2 =
        [.toRoomExcept "R1" "s1" (.moveEcho "Qg7"),
         .toRoom "R1" (.gameUpdate (toyEngine.fen 3) game'.currentTurn
           game'.moveCount (gameOverDataOf toyEngine 3) (some "Qg7"))] :=
  checkmate_finished_winner_C3 toyEngine stMate "s1" "Qg7" "R1" "t3" room0
    gameMate alice 3 "Qg7" (by decide) (by decide) (by decide) (by decide)
    (by decide) (by decide)

/-- C4: for every rejected move submission the handler leaves the state
unchanged and emits exactly one structured error event, delivered to the
requesting socket only; the four failure messages are pairwise distinct and
are selected in source order — room/game existence first, then membership,
then turn, then legality.  (The handler is a total function, so no
submission can crash it.) -/
theorem move_failure_ordered_unicast_C4 {B : Type} (eng : RulesEngine B)
    (st : ServerState B) (sid mv roomId now : String)
    (hrej : moveAccepted eng st sid mv roomId = false) :
    (onMove eng st sid mv roomId now).1 = st ∧
    ∃ m,
      (onMove eng st sid mv roomId now).2 = [.toSocket sid (.errorMsg m)] ∧
      recipients st (.toSocket sid (.errorMsg m)) = [sid] ∧
      m ∈ ["Room or game not found", "Player not found in room",
           "Not your turn", "Invalid move"] ∧
      (["Room or game not found", "Player not found in room",
        "Not your turn", "Invalid move"] : List String).Nodup ∧
      ((mapGet st.rooms roomId = none ∨ mapGet st.games roomId = none) →
        m = "Room or game not found") ∧
      (∀ room game, mapGet st.rooms roomId = some room →
        mapGet st.games roomId = some game →
        (room.players.find? (fun p => p.socketId == sid) = none →
          m = "Player not found in room") ∧
        (∀ player,
          room.players.find? (fun p => p.socketId == sid) = some player →
          (player.color ≠ eng.turn game.chess → m = "Not your turn") ∧
          (player.color = eng.turn game.chess →
            eng.move game.chess mv = none → m = "Invalid move"))) := by
  rcases hr : mapGet st.rooms roomId with _ | room
  · have he : onMove eng st sid mv roomId now =
        (st, [.toSocket sid (.errorMsg "Room or game not found")]) := by
      simp [onMove, hr]
    refine ⟨by rw [he], "Room or game not found", by rw [he], rfl, by decide,
      by decide, fun _ => rfl, ?_⟩
    intro room game h1 _
    simp at h1
  · rcases hg : mapGet st.games roomId with _ | game
    · have he : onMove eng st sid mv roomId now =
          (st, [.toSocket sid (.errorMsg "Room or game not found")]) := by
        simp [onMove, hr, hg]
      refine ⟨by rw [he], "Room or game not found", by rw [he], rfl, by decide,
        by decide, fun _ => rfl, ?_⟩
      intro room' game' _ h2
      simp at h2
    · rcases hf : room.players.find? (fun p => p.socketId == sid) with _ | player
      · have he : onMove eng st sid mv roomId now =
            (st, [.toSocket sid (.errorMsg "Player not found in room")]) := by
          simp [onMove, hr, hg, hf]
        refine ⟨by rw [he], "Player not found in room", by rw [he], rfl,
          by decide, by decide, ?_, ?_⟩
        · intro h
          rcases h with h | h <;> simp at h
        · intro room' game' h1 h2
          injection h1 with h1
          injection h2 with h2
          subst h1
          subst h2
          refine ⟨fun _ => rfl, ?_⟩
          intro player' hp
          rw [hf] at hp
          simp at hp
      · by_cases ht : player.color = eng.turn game.chess
        · have hm : eng.move game.chess mv = none := by
            unfold moveAccepted at hrej
            rw [hr, hg] at hrej
            simp only [hf, ht] at hrej
            simp at hrej
            exact hrej
          have he : onMove eng st sid mv roomId now =
              (st, [.toSocket sid (.errorMsg "Invalid move")]) := by
            simp [onMove, hr, hg, hf, ht, hm]
          refine ⟨by rw [he], "Invalid move", by rw [he], rfl, by decide,
            by decide, ?_, ?_⟩
          · intro h
            rcases h with h | h <;> simp at h
          · intro room' game' h1 h2
            injection h1 with h1
            injection h2 with h2
            subst h1
            subst h2
            refine ⟨?_, ?_⟩
            · intro h
              rw [hf] at h
              simp at h
            · intro player' hp
              rw [hf] at hp
              injection hp with hp
              subst hp
              exact ⟨fun h => absurd ht h, fun _ _ => rfl⟩
        · have he : onMove eng st sid mv roomId now =
              (st, [.toSocket sid (.errorMsg "Not your turn")]) := by
            simp [onMove, hr, hg, hf, ht]
          refine ⟨by rw [he], "Not your turn", by rw [he], rfl, by decide,
            by decide, ?_, ?_⟩
          · intro h
            rcases h with h | h <;> simp at h
          · intro room' game' h1 h2
            injection h1 with h1
            injection h2 with h2
            subst h1
            subst h2
            refine ⟨?_, ?_⟩
            · intro h
              rw [hf] at h
              simp at h
            · intro player' hp
              rw [hf] at hp
              injection hp with hp
              subst hp
              exact ⟨fun _ => rfl, fun h _ => absurd h ht⟩

/-- Witness for C4: a submission naming an unknown room id in the concrete
state `st0`. -/
theorem move_failure_ordered_unicast_C4_witness :
    (onMove toyEngine st0 "s1" "e4" "NOPE" "t1").1 = st0 ∧
    ∃ m,
      (onMove toyEngine st0 "s1" "e4" "NOPE" "t1").2 =
        [.toSocket "s1" (.errorMsg m)] ∧
      recipients st0 (.toSocket "s1" (.errorMsg m)) = ["s1"] ∧
      m ∈ ["Room or game not found", "Player not found in room",
           "Not your turn", "Invalid move"] ∧
      (["Room or game not found", "Player not found in room",
        "Not your turn", "Invalid move"] : List String).Nodup ∧
      ((mapGet st0.rooms "NOPE" = none ∨ mapGet st0.games "NOPE" = none) →
        m = "Room or game not found") ∧
      (∀ room game, mapGet st0.rooms "NOPE" = some room →
        mapGet st0.games "NOPE" = some game →
        (room.players.find? (fun p => p.socketId == "s1") = none →
          m = "Player not found in room") ∧
        (∀ player,
          room.players.find? (fun p => p.socketId == "s1") = some player →
          (player.color ≠ toyEngine.turn game.chess → m = "Not your turn") ∧
          (player.color = toyEngine.turn game.chess →
            toyEngine.move game.chess "e4" = none → m = "Invalid move"))) :=
  move_failure_ordered_unicast_C4 toyEngine st0 "s1" "e4" "NOPE" "t1"
    (by decide)

/-- C5: on a successful move submission the handler performs exactly two
sends, in this order after the state mutation: the raw move input to the
room except the submitter, then the full `gameUpdate` (board descriptor,
turn, count, game-over info, last move) to the whole room; under the
post-mutation state the first reaches every participant's socket except the
submitter's and the second reaches every participant's socket. -/
theorem success_broadcasts_C5 {B : Type} (eng : RulesEngine B)
    (st : ServerState B) (sid mv roomId now : String) (room : Room)
    (game : Game B) (player : Player) (b' : B) (res : String)
    (hroom : mapGet st.rooms roomId = some room)
    (hgame : mapGet st.games roomId = some game)
    (hplayer : room.players.find? (fun p => p.socketId == sid) = some player)
    (hturn : player.color = eng.turn game.chess)
    (hmove : eng.move game.chess mv = some (b', res)) :
    (onMove eng st sid mv roomId now).2 =
      [.toRoomExcept roomId sid (.moveEcho mv),
       .toRoom roomId (.gameUpdate (eng.fen b') (eng.turn b')
         (game.moveCount + 1) (gameOverDataOf eng b') (some res))] ∧
    recipients (onMove eng st sid mv roomId now).1
        (.toRoomExcept roomId sid (.moveEcho mv)) =
      (room.players.map Player.socketId).filter (fun x => x != sid) ∧
    recipients (onMove eng st sid mv roomId now).1
        (.toRoom roomId (.gameUpdate (eng.fen b') (eng.turn b')
          (game.moveCount + 1) (gameOverDataOf eng b') (some res))) =
      room.players.map Player.socketId := by
  rw [onMove_accept_eq eng st sid mv roomId now room game player b' res
    hroom hgame hplayer hturn hmove]
  refine ⟨rfl, ?_, ?_⟩ <;> simp [recipients, mapGet_set_self]

/-- Witness for C5: white's opening move in the concrete state `st0`. -/
theorem success_broadcasts_C5_witness :
    (onMove toyEngine st0 "s1" "e4" "R1" "t1").2 =
      [.toRoomExcept "R1" "s1" (.moveEcho "e4"),
       .toRoom "R1" (.gameUpdate (toyEngine.fen 1) (toyEngine.turn 1)
         (game0.moveCount + 1) (gameOverDataOf toyEngine 1) (some "e4"))] ∧
    recipients (onMove toyEngine st0 "s1" "e4" "R1" "t1").1
        (.toRoomExcept "R1" "s1" (.moveEcho "e4")) =
      (room0.players.map Player.socketId).filter (fun x => x != "s1") ∧
    recipients (onMove toyEngine st0 "s1" "e4" "R1" "t1").1
        (.toRoom "R1" (.gameUpdate (toyEngine.fen 1) (toyEngine.turn 1)
          (game0.moveCount + 1) (gameOverDataOf toyEngine 1) (some "e4"))) =
      room0.players.map Player.socketId :=
  success_broadcasts_C5 toyEngine st0 "s1" "e4" "R1" "t1" room0 game0 alice
    1 "e4" (by decide) (by decide) (by decide) (by decide) (by decide)

/-- C6: `gameReset` on an existing room stores the re-initialized game
(initial board, `gameState = "active"`, white to move, `moveCount = 0`,
empty history) and the room with refreshed `lastActivity`; running it a
second time (same timestamp) returns exactly the same state and emissions;
on a missing room the handler changes no state and emits nothing. -/
theorem gameReset_C6 {B : Type} (eng : RulesEngine B) (st : ServerState B)
    (roomId now : String) :
    (∀ room game, mapGet st.rooms roomId = some room →
      mapGet st.games roomId = some game →
      mapGet (onGameReset eng st roomId now).1.games roomId =
        some ⟨eng.init, "active", Color.white, 0, []⟩ ∧
      mapGet (onGameReset eng st roomId now).1.rooms roomId =
        some { room with lastActivity := now } ∧
      onGameReset eng (onGameReset eng st roomId now).1 roomId now =
        ((onGameReset eng st roomId now).1,
         (onGameReset eng st roomId now).2)) ∧
    (mapGet st.rooms roomId = none →
      onGameReset eng st roomId now = (st, [])) := by
  constructor
  · intro room game hr hg
    have he : onGameReset eng st roomId now =
        (⟨mapSet st.rooms roomId { room with lastActivity := now },
          mapSet st.games roomId ⟨eng.init, "active", Color.white, 0, []⟩⟩,
         [.toRoom roomId .gameResetSignal,
          .toRoom roomId (.gameUpdate (eng.fen eng.init) Color.white 0
            none none)]) := by
      simp [onGameReset, hr, hg]
    rw [he]
    refine ⟨mapGet_set_self _ _ _, mapGet_set_self _ _ _, ?_⟩
    have hr2 := mapGet_set_self st.rooms roomId
      ({ room with lastActivity := now })
    have hg2 := mapGet_set_self st.games roomId
      (⟨eng.init, "active", Color.white, 0, []⟩ : Game B)
    simp [onGameReset, hr2, hg2, mapSet_mapSet]
  · intro hr
    simp [onGameReset, hr]

/-- Witness for C6: resetting the mid-game state `stMate` and resetting it
again. -/
theorem gameReset_C6_witness :
    mapGet (onGameReset toyEngine stMate "R1" "t9").1.games "R1" =
      some ⟨0, "active", Color.white, 0, []⟩ ∧
    onGameReset toyEngine (onGameReset toyEngine stMate "R1" "t9").1 "R1" "t9" =
      ((onGameReset toyEngine stMate "R1" "t9").1,
       (onGameReset toyEngine stMate "R1" "t9").2) :=
  ⟨((gameReset_C6 toyEngine stMate "R1" "t9").1 room0 gameMate
      (by decide) (by decide)).1,
   ((gameReset_C6 toyEngine stMate "R1" "t9").1 room0 gameMate
      (by decide) (by decide)).2.2⟩

/-- Characterization of the disconnect handler once a room holding the
departing socket is found and the departing player located. -/
theorem onDisconnect_found_eq {B : Type} (st : ServerState B)
    (sid now roomId : String) (room : Room) (dp : Player)
    (hfind : st.rooms.find?
        (fun p => p.2.players.any (fun q => q.socketId == sid)) =
      some (roomId, room))
    (hfp : room.players.find? (fun q => q.socketId == sid) = some dp) :
    onDisconnect st sid now =
      (cleanupRoom
        ⟨mapSet st.rooms roomId
          { room with
            players := room.players.eraseP (fun q => q.socketId == sid)
            lastActivity := now },
         st.games⟩ roomId,
       if (room.players.eraseP (fun q => q.socketId == sid)).length > 0 then
         [Emit.toRoomExcept roomId sid (.playerDisconnected dp
            (room.players.eraseP (fun q => q.socketId == sid)).length)]
       else []) := by
  simp [onDisconnect, hfind, hfp]

/-- Rewrites `cleanupRoom` in terms of the looked-up room. -/
theorem cleanupRoom_eq_of_get {B : Type} (st : ServerState B)
    (roomId : String) (room : Room)
    (h : mapGet st.rooms roomId = some room) :
    cleanupRoom st roomId =
      if room.players.length = 0 then
        ⟨mapDelete st.rooms roomId, mapDelete st.games roomId⟩
      else st := by
  simp [cleanupRoom, h]

/-- The two outcomes of a found disconnect, by emptiness of the remaining
player list. -/
theorem onDisconnect_found_cases {B : Type} (st : ServerState B)
    (sid now roomId : String) (room : Room) (dp : Player)
    (hfind : st.rooms.find?
        (fun p => p.2.players.any (fun q => q.socketId == sid)) =
      some (roomId, room))
    (hfp : room.players.find? (fun q => q.socketId == sid) = some dp) :
    (room.players.eraseP (fun q => q.socketId == sid) = [] →
      (onDisconnect st sid now).1 =
        ⟨mapDelete (mapSet st.rooms roomId
          { room with
            players := room.players.eraseP (fun q => q.socketId == sid)
            lastActivity := now }) roomId,
         mapDelete st.games roomId⟩) ∧
    (room.players.eraseP (fun q => q.socketId == sid) ≠ [] →
      (onDisconnect st sid now).1 =
        ⟨mapSet st.rooms roomId
          { room with
            players := room.players.eraseP (fun q => q.socketId == sid)
            lastActivity := now },
         st.games⟩) := by
  rw [onDisconnect_found_eq st sid now roomId room dp hfind hfp]
  constructor
  · intro h
    rw [cleanupRoom_eq_of_get _ _ _ (mapGet_set_self _ _ _)]
    simp [h]
  · intro h
    rw [cleanupRoom_eq_of_get _ _ _ (mapGet_set_self _ _ _)]
    simp [List.length_eq_zero, h]

/-- C7: the disconnect handler (participant removal followed by
`cleanupRoom`) never leaves an empty room in the registry — it preserves
the no-empty-rooms invariant — and disconnecting the sole remaining
participant of a room deletes both the Room and its GameSession, so
subsequent lookups of that room id fail. -/
theorem disconnect_no_empty_room_C7 {B : Type} (st : ServerState B)
    (sid now : String) :
    ((∀ p ∈ st.rooms, (Prod.snd p).players ≠ []) →
      ∀ p ∈ (onDisconnect st sid now).1.rooms, (Prod.snd p).players ≠ []) ∧
    (∀ roomId room player,
      st.rooms.find?
          (fun p => p.2.players.any (fun q => q.socketId == sid)) =
        some (roomId, room) →
      room.players = [player] →
      mapGet (onDisconnect st sid now).1.rooms roomId = none ∧
      mapGet (onDisconnect st sid now).1.games roomId = none) := by
  constructor
  · intro hinv p hp
    rcases hfind : st.rooms.find?
        (fun q => q.2.players.any (fun r => r.socketId == sid)) with _ | pr
    · have he : onDisconnect st sid now = (st, []) := by
        simp [onDisconnect, hfind]
      rw [he] at hp
      exact hinv p hp
    · obtain ⟨roomId, room⟩ := pr
      rcases hfp : room.players.find? (fun q => q.socketId == sid) with _ | dp
      · have he : onDisconnect st sid now = (st, []) := by
          simp [onDisconnect, hfind, hfp]
        rw [he] at hp
        exact hinv p hp
      · by_cases he0 : room.players.eraseP (fun q => q.socketId == sid) = []
        · rw [(onDisconnect_found_cases st sid now roomId room dp hfind
            hfp).1 he0] at hp
          obtain ⟨hmem, hne⟩ := mem_mapDelete hp
          rcases mem_mapSet hmem with h | h
          · exact absurd (by rw [h]) hne
          · exact hinv p h
        · rw [(onDisconnect_found_cases st sid now roomId room dp hfind
            hfp).2 he0] at hp
          rcases mem_mapSet hp with h | h
          · rw [h]
            simpa using he0
          · exact hinv p h
  · intro roomId room player hfind hsingle
    have hany : room.players.any (fun q => q.socketId == sid) = true := by
      have := List.find?_some hfind
      simpa using this
    have hmatch : (player.socketId == sid) = true := by
      rw [hsingle] at hany
      simpa using hany
    have hfp : room.players.find? (fun q => q.socketId == sid) =
        some player := by
      rw [hsingle]
      simp [hmatch]
    have he0 : room.players.eraseP (fun q => q.socketId == sid) = [] := by
      rw [hsingle]
      simp [List.eraseP_cons, hmatch]
    rw [(onDisconnect_found_cases st sid now roomId room player hfind
      hfp).1 he0]
    exact ⟨mapGet_delete_self _ _, mapGet_delete_self _ _⟩

/-- A one-participant room and its state, for the C7 witness. -/
def soloRoom : Room := ⟨"R1", [alice], "waiting", "t0", "t0"⟩

/-- A server state whose sole room has a single participant. -/
def stSolo : ServerState Nat := ⟨[("R1", soloRoom)], [("R1", game0)]⟩

/-- Witness for C7: disconnecting the sole participant deletes room and
game. -/
theorem disconnect_no_empty_room_C7_witness :
    mapGet (onDisconnect stSolo "s1" "t1").1.rooms "R1" = none ∧
    mapGet (onDisconnect stSolo "s1" "t1").1.games "R1" = none :=
  (disconnect_no_empty_room_C7 stSolo "s1" "t1").2 "R1" soloRoom alice
    (by decide) (by decide)

/-- A pre-existing room under the id "AB12CD34", with a game in progress,
for the C8 counterexample. -/
def oldRoom8 : Room := ⟨"AB12CD34", [alice], "waiting", "t0", "t0"⟩

/-- The in-progress game of `oldRoom8`. -/
def oldGame8 : Game Nat := ⟨2, "active", Color.white, 2, []⟩

/-- A server state already holding room "AB12CD34". -/
def st8 : ServerState Nat := ⟨[("AB12CD34", oldRoom8)], [("AB12CD34", oldGame8)]⟩

/-- Counterexample to C8: `generateRoomId()` is called exactly once per
`createRoom` and its result is stored unconditionally; when it collides
with an existing id the existing Room and GameSession are destroyed, and
the "fresh" returned id is the colliding one. -/
theorem createRoom_collision_counterexample_C8 :
    mapGet st8.rooms "AB12CD34" = some oldRoom8 ∧
    mapGet st8.games "AB12CD34" = some oldGame8 ∧
    (onCreateRoom toyEngine st8 "s9" (some "Eve") "AB12CD34" "t2").2 =
      "AB12CD34" ∧
    mapGet (onCreateRoom toyEngine st8 "s9" (some "Eve") "AB12CD34" "t2").1.rooms
      "AB12CD34" ≠ some oldRoom8 ∧
    mapGet (onCreateRoom toyEngine st8 "s9" (some "Eve") "AB12CD34" "t2").1.games
      "AB12CD34" ≠ some oldGame8 := by
  decide

/-- C8 (amended): `createRoom` uses the single generated id without any
collision check or retry: the callback returns that id and a new
one-participant Room plus a fresh GameSession are stored under it,
replacing — and thereby destroying — any existing Room and GameSession
with the same id. -/
theorem createRoom_overwrites_on_collision_C8 {B : Type}
    (eng : RulesEngine B) (st : ServerState B) (sid : String)
    (username : Option String) (newId now : String) :
    (onCreateRoom eng st sid username newId now).2 = newId ∧
    mapGet (onCreateRoom eng st sid username newId now).1.rooms newId =
      some ⟨newId, [⟨sid, username.getD "Anonymous", Color.white, false⟩],
        "waiting", now, now⟩ ∧
    mapGet (onCreateRoom eng st sid username newId now).1.games newId =
      some ⟨eng.init, "waiting", Color.white, 0, []⟩ :=
  ⟨rfl, mapGet_set_self _ _ _, mapGet_set_self _ _ _⟩

/-- Counterexample to C9: when the requesting connection is already a
participant of a room that holds two participants, `joinRoom` answers
"Room is full", not "Already in this room" — the fullness check runs
first. -/
theorem joinRoom_already_joined_counterexample_C9 :
    room0.players.any (fun p => p.socketId == "s1") = true ∧
    mapGet st0.rooms "R1" = some room0 ∧
    (onJoinRoom st0 "s1" (some "Alice") "R1" "t1").2.1 = .err "Room is full" ∧
    (onJoinRoom st0 "s1" (some "Alice") "R1" "t1").2.1 ≠
      .err "Already in this room" := by
  decide

/-- C9 (amended): a `joinRoom` request from a connection that is already a
participant is rejected without mutating the room — with "Already in this
room" when the room holds fewer than two participants, but with "Room is
full" when it already holds two, since the fullness check precedes the
membership check. -/
theorem joinRoom_already_joined_C9 {B : Type} (st : ServerState B)
    (sid : String) (username : Option String) (roomId now : String)
    (room : Room)
    (hroom : mapGet st.rooms roomId = some room)
    (hmem : room.players.any (fun p => p.socketId == sid) = true) :
    (room.players.length < 2 →
      onJoinRoom st sid username roomId now =
        (st, .err "Already in this room", [])) ∧
    (2 ≤ room.players.length →
      onJoinRoom st sid username roomId now =
        (st, .err "Room is full", [])) := by
  constructor
  · intro hlen
    have hnot : ¬ room.players.length ≥ 2 := by omega
    simp [onJoinRoom, hroom, hnot, hmem]
  · intro hlen
    simp [onJoinRoom, hroom, hlen]

/-- Witness for C9 (amended): "s1" re-joins the one-participant room it
already occupies, and the fullness branch on the two-participant room. -/
theorem joinRoom_already_joined_C9_witness :
    (soloRoom.players.length < 2 →
      onJoinRoom stSolo "s1" (some "Alice") "R1" "t1" =
        (stSolo, .err "Already in this room", [])) ∧
    (2 ≤ soloRoom.players.length →
      onJoinRoom stSolo "s1" (some "Alice") "R1" "t1" =
        (stSolo, .err "Room is full", [])) :=
  joinRoom_already_joined_C9 stSolo "s1" (some "Alice") "R1" "t1" soloRoom
    (by decide) (by decide)

/-- The waiting game of a freshly created one-participant room, for C10. -/
def gameW : Game Nat := ⟨0, "waiting", Color.white, 0, []⟩

/-- A server state exactly as `createRoom` leaves it: one participant,
room status "waiting", game state "waiting". -/
def stW : ServerState Nat := ⟨[("R1", soloRoom)], [("R1", gameW)]⟩

/-- C10: the move handler checks neither `gameState` nor the number of
participants: in a single-participant room still in the "waiting" states,
an engine-legal move by the sole participant on their turn is accepted and
produces exactly the same mutation and broadcasts as in a two-participant
active room. -/
theorem waiting_room_move_accepted_C10 {B : Type} (eng : RulesEngine B)
    (st : ServerState B) (sid mv roomId now : String) (room : Room)
    (game : Game B) (player : Player) (b' : B) (res : String)
    (hroom : mapGet st.rooms roomId = some room)
    (hgame : mapGet st.games roomId = some game)
    (hsingle : room.players = [player])
    (hsid : player.socketId = sid)
    (_hstatus : room.status = "waiting")
    (_hstate : game.gameState = "waiting")
    (hturn : player.color = eng.turn game.chess)
    (hmove : eng.move game.chess mv = some (b', res)) :
    moveAccepted eng st sid mv roomId = true ∧
    onMove eng st sid mv roomId now =
      ({ rooms := mapSet st.rooms roomId { room with lastActivity := now }
         games := mapSet st.games roomId
           { chess := b'
             gameState := if eng.isGameOver b' then "finished" else game.gameState
             currentTurn := eng.turn b'
             moveCount := game.moveCount + 1
             history := game.history ++ [⟨res, eng.fen b', now, player.username⟩] } },
       [.toRoomExcept roomId sid (.moveEcho mv),
        .toRoom roomId (.gameUpdate (eng.fen b') (eng.turn b')
          (game.moveCount + 1) (gameOverDataOf eng b') (some res))]) := by
  have hplayer : room.players.find? (fun p => p.socketId == sid) =
      some player := by
    rw [hsingle]
    simp [hsid]
  refine ⟨?_, onMove_accept_eq eng st sid mv roomId now room game player b'
    res hroom hgame hplayer hturn hmove⟩
  simp [moveAccepted, hroom, hgame, hplayer, hturn, hmove]

/-- Witness for C10: the sole participant of the waiting room `stW` plays
the opening move. -/
theorem waiting_room_move_accepted_C10_witness :
    moveAccepted toyEngine stW "s1" "e4" "R1" = true ∧
    onMove toyEngine stW "s1" "e4" "R1" "t1" =
      ({ rooms := mapSet stW.rooms "R1" { soloRoom with lastActivity := "t1" }
         games := mapSet stW.games "R1"
           { chess := 1
             gameState := if toyEngine.isGameOver 1 then "finished"
               else gameW.gameState
             currentTurn := toyEngine.turn 1
             moveCount := gameW.moveCount + 1
             history := gameW.history ++
               [⟨"e4", toyEngine.fen 1, "t1", alice.username⟩] } },
       [.toRoomExcept "R1" "s1" (.moveEcho "e4"),
        .toRoom "R1" (.gameUpdate (toyEngine.fen 1) (toyEngine.turn 1)
          (gameW.moveCount + 1) (gameOverDataOf toyEngine 1) (some "e4"))]) :=
  waiting_room_move_accepted_C10 toyEngine stW "s1" "e4" "R1" "t1" soloRoom
    gameW alice 1 "e4" (by decide) (by decide) (by decide) (by decide)
    (by decide) (by decide) (by decide) (by decide)

end ChessServer
